import Mathlib

/-!
Verification development for the YARP wire codec (libyarp/yarp).

The Go sources are shallowly embedded: byte streams (`io.Reader`) become
`List Nat` of bytes read from the front, machine integers become `Nat` with
explicit `% 2 ^ 64` where Go's `uint64` arithmetic can wrap, fallible code
returns `Except Err`, and `io.LimitReader` windows become `List.take` /
`List.drop` (with an explicit remaining-byte counter where the source reads
through a limit reader interleaved with reads from the raw reader, as
`decodeMap` does).  Floats are represented by their IEEE-754 bit patterns
read little-endian, exactly as the source stores them before
`math.Float64frombits`; no claim inspects a float's numeric value.

The mutually recursive decoders (`Decode` in wire.go recurses through the
array / map / oneof / struct decoders) are given an explicit fuel argument;
in Go the recursion terminates because every nested decode consumes input.
All theorems about the decoders either quantify over the fuel or use a
concrete fuel large enough for the concrete input at hand.
-/

namespace Yarp

/-- Errors the embedded codec can produce.  Each constructor mirrors an error
value of the source: `eof` is `io.EOF`, `unexpectedEof` is
`io.ErrUnexpectedEOF` (returned by `io.ReadFull` on a partial read),
`sizeTooLarge` is `ErrSizeTooLarge`, `invalidType` is `ErrInvalidType`,
the map errors mirror the `fmt.Errorf` values in map.go, and
`unknownStructType` is `ErrUnknownStructType`.  `runtimeError` stands for a
Go runtime fault (e.g. an out-of-range index) recovered by `Decode`'s
deferred `recover` and returned as an error.  `outOfFuel` is an artifact of
the model's bounded recursion and corresponds to no source behaviour. -/
inductive Err where
  | eof
  | unexpectedEof
  | sizeTooLarge
  | invalidType
  | nonHomogeneousMapKey
  | nonHomogeneousMapValue
  | unevenMapValues
  | unknownStructType
  | runtimeError
  | outOfFuel
deriving DecidableEq, Repr

/-- The primary types of a YARP stream (`Type` in the source; `Ty` here since
`Type` is reserved in Lean). -/
inductive Ty where
  | invalid
  | void
  | scalar
  | float
  | array
  | struct
  | string
  | map
  | oneOf
deriving DecidableEq, Repr

/-- `sizeLimit`: `const sizeLimit = uint64(2e+9)`. -/
def sizeLimit : Nat := 2000000000

/-- `detectType` dispatches on the top three bits of the leading byte. -/
def detectType (b : Nat) : Ty :=
  match b >>> 5 with
  | 0 => .void
  | 1 => .scalar
  | 2 => .float
  | 3 => .array
  | 4 => .struct
  | 5 => .string
  | 6 => .map
  | 7 => .oneOf
  | _ => .invalid

/-- The continuation-byte loop of `decodeScalar` (scalar.go lines 55-65):
shift the accumulator left by 7 (64-bit wrap), OR in the byte's high 7 bits,
stop when the byte's continuation bit (bit 0) is clear.  `reader.Read` on an
exhausted stream yields `io.EOF`. -/
def scalarLoop : Nat → List Nat → Except Err (Nat × List Nat)
  | _, [] => .error .eof
  | acc, b :: rest =>
    let acc' := ((acc <<< 7) % 2 ^ 64) ||| (b >>> 1)
    if b &&& 1 = 1 then scalarLoop acc' rest else .ok (acc', rest)

/-- `decodeScalar` (scalar.go lines 49-67): bits 3-1 of the header byte hold
the initial payload, bit 4 the signedness, bit 0 the continuation flag. -/
def decodeScalar (header : Nat) (bytes : List Nat) :
    Except Err (Bool × Nat × List Nat) :=
  let value := (header &&& 0xE) >>> 1
  let signed := header &&& 0x10 == 0x10
  if header &&& 0x1 = 0x1 then
    match scalarLoop value bytes with
    | .error e => .error e
    | .ok (v, rest) => .ok (signed, v, rest)
  else
    .ok (signed, value, bytes)

/-- The encoding loop of `encodeInteger` (scalar.go lines 10-27), written as
recursion over the 7-bit chunks that the Go loop peels from the bottom and
stores from `data[15]` backwards.  `isLast` is true for the chunk written in
the first iteration, i.e. the last byte of the output, which carries no
continuation bit.  Both the loop guard `(value << 1) > 0x7` and the terminal
byte `uint8(value<<1) & 0x7` compute `value << 1` in `uint64`, hence the
explicit `% 2 ^ 64`.  The fuel 16 mirrors the 16-byte buffer (`maxLen`); it
is never exhausted for 64-bit inputs. -/
def encodeIntegerLoop : Nat → Nat → Bool → List Nat
  | 0, _, _ => []
  | fuel + 1, value, isLast =>
    if 7 < value * 2 % 2 ^ 64 then
      encodeIntegerLoop fuel (value / 128) false ++
        [value % 128 * 2 + (if isLast then 0 else 1)]
    else
      [value * 2 % 2 ^ 64 % 8 + (if isLast then 0 else 1)]

/-- `encodeInteger` (scalar.go lines 10-27). -/
def encodeInteger (value : Nat) : List Nat :=
  encodeIntegerLoop 16 value true

/-- `encodeUint` (scalar.go lines 35-39): tag the leading byte with 0x20. -/
def encodeUint (value : Nat) : List Nat :=
  match encodeInteger value with
  | [] => []
  | b :: rest => (b ||| 0x20) :: rest

/-- `encodeInt` (scalar.go lines 29-33).  The argument is the `uint64` bit
pattern of the `int64` (the source casts with `uint64(value)`). -/
def encodeInt (value : Nat) : List Nat :=
  match encodeInteger value with
  | [] => []
  | b :: rest => (b ||| 0x30) :: rest

/-- `encodeBool` (scalar.go lines 41-47). -/
def encodeBool (value : Bool) : List Nat :=
  if value then [0x30] else [0x20]

/-- Little-endian byte-list to integer, as `binary.LittleEndian.Uint64` /
`Uint32` read the struct type id and float payloads. -/
def leNat (bs : List Nat) : Nat :=
  bs.foldr (fun b acc => b + 256 * acc) 0

/-- `io.ReadFull` on the model reader: reading zero of `n > 0` wanted bytes
yields `io.EOF`, a partial read yields `io.ErrUnexpectedEOF`. -/
def readFull (n : Nat) (bytes : List Nat) :
    Except Err (List Nat × List Nat) :=
  if bytes.length < n then
    if bytes.isEmpty then .error .eof else .error .unexpectedEof
  else
    .ok (bytes.take n, bytes.drop n)

/-- A one-byte `Read` through an `io.LimitReader`: EOF once the limit is
exhausted or the underlying reader is empty; otherwise pop a byte and
decrement the limit. -/
def limitedRead1 (limit : Nat) (bytes : List Nat) :
    Except Err (Nat × Nat × List Nat) :=
  if limit = 0 then .error .eof
  else
    match bytes with
    | [] => .error .eof
    | b :: rest => .ok (b, limit - 1, rest)

/-- `decodeFloat` (float.go lines 35-56): bit 4 of the header selects 64-bit,
bit 3 is the zero fast path; otherwise 4 or 8 little-endian payload bytes.
The result keeps the IEEE-754 bit pattern instead of a Lean float. -/
def decodeFloat (header : Nat) (bytes : List Nat) :
    Except Err (Nat × Nat × List Nat) :=
  let bits := if header &&& 0x10 = 0x10 then 64 else 32
  if header &&& 0x8 = 0x8 then .ok (bits, 0, bytes)
  else
    match readFull (bits / 8) bytes with
    | .error e => .error e
    | .ok (buf, rest) => .ok (bits, leNat buf, rest)

/-- `decodeString` (wire.go lines 732-746).  The source discards the error of
`decodeScalar`, returning `"", nil`; `scalarLoop` only fails once the stream
is exhausted, so the remaining bytes in that branch are `[]`.  Strings are
byte lists.  `io.ReadAll` of the limited reader reads at most `size` bytes
and never fails on the model reader. -/
def decodeString (header : Nat) (bytes : List Nat) :
    Except Err (List Nat × List Nat) :=
  match decodeScalar header bytes with
  | .error _ => .ok ([], [])
  | .ok (_, size, r) =>
    if sizeLimit ≤ size then .error .sizeTooLarge
    else .ok (r.take size, r.drop size)

/-- The single modelled declared-field type.  The registry model covers
structs whose declared fields are all `bool`; this is the part of the
reflection-driven binding in struct.go that the claims exercise (the bool
conversion rule of `setValue` and the unknown-field bookkeeping, which do
not depend on the declared type). -/
inductive FieldType where
  | boolean
deriving DecidableEq, Repr

/-- Decoded dynamic values, the `interface{}` results of `Decode`:
`voidV` is the nil interface, `scalarV` keeps the signedness flag (Go
returns `int64(v)` or `v : uint64`), `floatV` keeps the bit width and
IEEE-754 pattern, `strV` the bytes of the string, `arrV` the
`[]interface{}` slice (`[]` for Go's nil slice), `mapV` the `*MapValue`
(`none` for a nil pointer, otherwise parallel key and value lists),
`oneOfV` the `*OneOfValue` (`none` for nil, otherwise index and data) and
`structI` a concrete struct instance from `decodeStructToConcrete`: the
bound bool fields plus the `Structure.UnknownFields` entries
`(Index, Type, Data)`. -/
inductive Val where
  | voidV
  | scalarV (signed : Bool) (v : Nat)
  | floatV (bits : Nat) (pattern : Nat)
  | strV (s : List Nat)
  | arrV (elems : List Val)
  | mapV (m : Option (List Val × List Val))
  | oneOfV (o : Option (Nat × Val))
  | structI (fields : List Bool) (unknown : List (Nat × Ty × Val))

/-- The struct registry (`registry` in the source), mapping a 64-bit type id
to the validated field plan of the registered type. -/
abbrev Registry := List (Nat × List FieldType)

/-- `setValue` (struct.go lines 282-385) for a declared `bool` field.  The
switch cases, in source order, for each decoded value shape:

* nil interface (`voidV`): no case guards against an invalid
  `reflect.Value`, so evaluating `rv.Type()` in the second case's condition
  is a runtime fault, recovered upstream;
* nil `*MapValue` / nil `*OneOfValue`: the second case's condition calls
  `rv.Elem().Type()` on a nil pointer's zero `Value`, a runtime fault;
* `int64` / `uint64` scalars: Go integers are not `ConvertibleTo` `bool`,
  so they fall through to the dedicated bool case, which sets the field to
  `rv.Type().Kind() == reflect.Int64`, i.e. the signedness flag;
* everything else is not convertible to `bool` and falls through to the
  default case, reporting that the value did not bind. -/
def setValue (ft : FieldType) (v : Val) : Except Err (Option Bool) :=
  match ft, v with
  | .boolean, .voidV => .error .runtimeError
  | .boolean, .mapV none => .error .runtimeError
  | .boolean, .oneOfV none => .error .runtimeError
  | .boolean, .scalarV signed _ => .ok (some signed)
  | .boolean, _ => .ok none

/-- The first binding loop of `decodeStructToConcrete` (struct.go lines
227-264), iterating over the declared fields with running index `i` and
carrying Go's `maxI` accumulator.  `if i > vLen { break }` leaves the bound
fields at their zero value (`false`); when `i = vLen` the source evaluates
`str.values[i]`, an out-of-range index, i.e. a runtime fault. -/
def bindFirst (fields : List FieldType) (i maxI : Nat) (tys : List Ty)
    (vals : List Val) :
    Except Err (List Bool × List (Nat × Ty × Val) × Nat) :=
  match fields with
  | [] => .ok ([], [], maxI)
  | ft :: fts =>
    if vals.length < i then .ok ((ft :: fts).map (fun _ => false), [], maxI)
    else
      match vals.get? i with
      | none => .error .runtimeError
      | some v =>
        match setValue ft v with
        | .error e => .error e
        | .ok res =>
          match bindFirst fts (i + 1) i tys vals with
          | .error e => .error e
          | .ok (bs, unk, maxI') =>
            match res with
            | some b => .ok (b :: bs, unk, maxI')
            | none => .ok (false :: bs, (i, tys.getD i .invalid, v) :: unk, maxI')

/-- The unknown-field bookkeeping of `decodeStructToConcrete` (struct.go
lines 224-278): the first loop over the declared fields followed by the
trailing loop `for i, v := range str.values[maxI+1:]`, which records
`Index: maxI + i` and `Type: str.types[i]` with `i` the position inside the
sliced tail (`tys.getD` is total; in the source `i` is always in range of
`types`). -/
def bindFields (fields : List FieldType) (tys : List Ty) (vals : List Val) :
    Except Err (List Bool × List (Nat × Ty × Val)) :=
  match bindFirst fields 0 0 tys vals with
  | .error e => .error e
  | .ok (bound, unknown, maxI) =>
    let tail := (vals.drop (maxI + 1)).enum.map
      (fun p => (maxI + p.1, tys.getD p.1 .invalid, p.2))
    .ok (bound, unknown ++ tail)

mutual

/-- `Decode` (wire.go lines 629-684): read a header byte, dispatch on
`detectType`.  The registry is the source's global `registry` made explicit.
A recovered panic anywhere below surfaces as `.runtimeError`, matching the
deferred `recover` every `Decode` call installs.  The `.struct` branch in
the source returns the raw `*encodedStruct` alongside `ErrUnknownStructType`
for callers to inspect; the model keeps only the error. -/
def decodeVal : Nat → Registry → List Nat → Except Err (Ty × Val × List Nat)
  | 0, _, _ => .error .outOfFuel
  | fuel + 1, reg, bytes =>
    match bytes with
    | [] => .error .eof
    | header :: rest =>
      match detectType header with
      | .void => .ok (.void, .voidV, rest)
      | .scalar =>
        match decodeScalar header rest with
        | .error e => .error e
        | .ok (s, v, r) => .ok (.scalar, .scalarV s v, r)
      | .float =>
        match decodeFloat header rest with
        | .error e => .error e
        | .ok (bits, pat, r) => .ok (.float, .floatV bits pat, r)
      | .array =>
        match decodeArray fuel reg header rest with
        | .error e => .error e
        | .ok (xs, r) => .ok (.array, .arrV xs, r)
      | .string =>
        match decodeString header rest with
        | .error e => .error e
        | .ok (s, r) => .ok (.string, .strV s, r)
      | .struct =>
        match decodeStructToConcrete fuel reg header rest with
        | .error e => .error e
        | .ok (v, r) => .ok (.struct, v, r)
      | .map =>
        match decodeMap fuel reg header rest with
        | .error e => .error e
        | .ok (m, r) => .ok (.map, .mapV m, r)
      | .oneOf =>
        match decodeOneOf fuel reg header rest with
        | .error e => .error e
        | .ok (o, r) => .ok (.oneOf, .oneOfV o, r)
      | .invalid => .error .invalidType
termination_by structural fuel _ _ => fuel

/-- The element loop shared by `decodeArray` (array.go lines 52-64) and the
struct body loop (struct.go lines 192-202): decode values until `Decode`
reports `io.EOF` (the break), propagating every other error.  Arrays
dereference struct pointers before storing them; `structI` is already a
value, so no step is needed. -/
def decodeMany : Nat → Registry → List Nat → Except Err (List (Ty × Val))
  | 0, _, _ => .error .outOfFuel
  | fuel + 1, reg, bytes =>
    match decodeVal fuel reg bytes with
    | .error .eof => .ok []
    | .error e => .error e
    | .ok (t, v, rest) =>
      match decodeMany fuel reg rest with
      | .error e => .error e
      | .ok items => .ok ((t, v) :: items)
termination_by structural fuel _ _ => fuel

/-- The key / value loops of `decodeMap` (map.go lines 97-111 and 122-136):
like `decodeMany` but tracking the first element's primary type and failing
on a mismatch (`isKey` picks which non-homogeneity error). -/
def decodeMapItems :
    Nat → Registry → Ty → Bool → List Nat → Except Err (List Val)
  | 0, _, _, _, _ => .error .outOfFuel
  | fuel + 1, reg, seenTy, isKey, bytes =>
    match decodeVal fuel reg bytes with
    | .error .eof => .ok []
    | .error e => .error e
    | .ok (t, v, rest) =>
      if seenTy = .invalid then
        match decodeMapItems fuel reg t isKey rest with
        | .error e => .error e
        | .ok vs => .ok (v :: vs)
      else if seenTy ≠ t then
        .error (if isKey then .nonHomogeneousMapKey else .nonHomogeneousMapValue)
      else
        match decodeMapItems fuel reg seenTy isKey rest with
        | .error e => .error e
        | .ok vs => .ok (v :: vs)
termination_by structural fuel _ _ _ _ => fuel

/-- `decodeArray` (array.go lines 39-67): size varint, zero fast path
returning the nil slice, 2 GB guard, then the element loop inside
`io.LimitReader(r, size)` — the window `r.take size`, with `r.drop size`
left in the stream. -/
def decodeArray :
    Nat → Registry → Nat → List Nat → Except Err (List Val × List Nat)
  | 0, _, _, _ => .error .outOfFuel
  | fuel + 1, reg, header, bytes =>
    match decodeScalar header bytes with
    | .error e => .error e
    | .ok (_, size, r) =>
      if size = 0 then .ok ([], r)
      else if sizeLimit ≤ size then .error .sizeTooLarge
      else
        match decodeMany fuel reg (r.take size) with
        | .error e => .error e
        | .ok items => .ok (items.map Prod.snd, r.drop size)
termination_by structural fuel _ _ _ => fuel

/-- `decodeMap` (map.go lines 73-143).  The source makes
`reader := io.LimitReader(r, size)` but reads through it only for the two
single-byte length headers (`reader.Read(b)`), modelled by `limitedRead1`
with the running limit; the continuation bytes of `keyLen` / `valLen` and
the key and value blocks (`io.LimitReader(r, keyLen)` etc.) are read from
the raw `r`, so they are not confined to the declared outer window.  The
final cardinality check yields `uneven map values`. -/
def decodeMap : Nat → Registry → Nat → List Nat →
    Except Err (Option (List Val × List Val) × List Nat)
  | 0, _, _, _ => .error .outOfFuel
  | fuel + 1, reg, header, bytes =>
    match decodeScalar header bytes with
    | .error e => .error e
    | .ok (_, size, r0) =>
      if size = 0 then .ok (none, r0)
      else if sizeLimit ≤ size then .error .sizeTooLarge
      else
        match limitedRead1 size r0 with
        | .error e => .error e
        | .ok (b1, limit1, r1) =>
          match decodeScalar b1 r1 with
          | .error e => .error e
          | .ok (_, keyLen, r2) =>
            match decodeMapItems fuel reg .invalid true (r2.take keyLen) with
            | .error e => .error e
            | .ok keys =>
              match limitedRead1 limit1 (r2.drop keyLen) with
              | .error e => .error e
              | .ok (b2, _, r4) =>
                match decodeScalar b2 r4 with
                | .error e => .error e
                | .ok (_, valLen, r5) =>
                  match decodeMapItems fuel reg .invalid false (r5.take valLen) with
                  | .error e => .error e
                  | .ok vals =>
                    if keys.length ≠ vals.length then .error .unevenMapValues
                    else .ok (some (keys, vals), r5.drop valLen)
termination_by structural fuel _ _ _ => fuel

/-- `decodeOneOf` (oneof.go lines 35-60): size varint, zero fast path
returning the nil pointer, 2 GB guard; inside the window, the discriminant
varint then exactly one inner value.  The window's unread remainder stays in
the underlying stream, hence `w3 ++ after`. -/
def decodeOneOf : Nat → Registry → Nat → List Nat →
    Except Err (Option (Nat × Val) × List Nat)
  | 0, _, _, _ => .error .outOfFuel
  | fuel + 1, reg, header, bytes =>
    match decodeScalar header bytes with
    | .error e => .error e
    | .ok (_, size, r) =>
      if size = 0 then .ok (none, r)
      else if sizeLimit ≤ size then .error .sizeTooLarge
      else
        let window := r.take size
        let after := r.drop size
        match window with
        | [] => .error .eof
        | h :: w =>
          match decodeScalar h w with
          | .error e => .error e
          | .ok (_, idx, w2) =>
            match decodeVal fuel reg w2 with
            | .error e => .error e
            | .ok (_, v, w3) => .ok (some (idx, v), w3 ++ after)
termination_by structural fuel _ _ _ => fuel

/-- `decodeStruct` (struct.go lines 175-205): size varint, 2 GB guard, the
8-byte little-endian type id read with `io.ReadFull` from the window, then
the body loop until the window is exhausted.  Returns
`(id, types, values)` — the `encodedStruct` — and the stream after the
window. -/
def decodeStruct : Nat → Registry → Nat → List Nat →
    Except Err ((Nat × List Ty × List Val) × List Nat)
  | 0, _, _, _ => .error .outOfFuel
  | fuel + 1, reg, header, bytes =>
    match decodeScalar header bytes with
    | .error e => .error e
    | .ok (_, size, r) =>
      if sizeLimit ≤ size then .error .sizeTooLarge
      else
        let window := r.take size
        let after := r.drop size
        match readFull 8 window with
        | .error e => .error e
        | .ok (id, w) =>
          match decodeMany fuel reg w with
          | .error e => .error e
          | .ok items =>
            .ok ((leNat id, items.map Prod.fst, items.map Prod.snd), after)
termination_by structural fuel _ _ _ => fuel

/-- `decodeStructToConcrete` (struct.go lines 207-280): decode the raw
struct, look the type id up in the registry (absent ids yield
`ErrUnknownStructType`), then bind the positional values to the declared
fields, collecting unbound values into `Structure.UnknownFields`. -/
def decodeStructToConcrete :
    Nat → Registry → Nat → List Nat → Except Err (Val × List Nat)
  | 0, _, _, _ => .error .outOfFuel
  | fuel + 1, reg, header, bytes =>
    match decodeStruct fuel reg header bytes with
    | .error e => .error e
    | .ok ((id, tys, vals), after) =>
      match List.lookup id reg with
      | none => .error .unknownStructType
      | some fields =>
        match bindFields fields tys vals with
        | .error e => .error e
        | .ok (bound, unknown) => .ok (.structI bound unknown, after)
termination_by structural fuel _ _ _ => fuel

end

/-!  Claims.  -/

/-- C1: the claim states that for every uint64 `v`, `decodeScalar` applied to
`encodeUint v` returns `(unsigned, v)`, and likewise for `encodeInt` on
int64.  This fails at `v = 2 ^ 63` (and at the int64 minimum, whose uint64
pattern is `2 ^ 63`): the loop guard `(value << 1) > 0x7` computes
`value << 1` in `uint64`, so for `2 ^ 63` it wraps to `0`, the loop never
runs, and the encoder emits the single byte `0x20` — the encoding of `0`.
Decoding it yields `(unsigned, 0) ≠ (unsigned, 2 ^ 63)`.  This theorem
evaluates the embedded code at the failing input. -/
theorem c1_roundtrip_fails_at_two_pow_63 :
    encodeUint (2 ^ 63) = [0x20] ∧ decodeScalar 0x20 [] = .ok (false, 0, []) ∧
    encodeInt (2 ^ 63) = [0x30] ∧ decodeScalar 0x30 [] = .ok (true, 0, []) ∧
    (2 ^ 63 : Nat) ≠ 0 :=
  ⟨rfl, rfl, rfl, rfl, by decide⟩

/-- C2: the claim states that `Decode` of any byte sequence returns a
well-typed value or an error from the section-7 taxonomy.  The bound check
of the struct binding loop is off by one (`if i > vLen` instead of
`i >= vLen`), so for a registered struct type whose stream carries fewer
positional values than declared fields, `str.values[i]` is evaluated out of
range: a runtime fault, recovered by `Decode`'s deferred `recover` and
returned as a raw runtime error — which is not one of the section-7 error
kinds.  The input here is a struct frame with declared size 8 (varint
`0x01 0x10`), carrying the registered type id 42 and no values at all. -/
theorem c2_struct_decode_escapes_taxonomy :
    decodeVal 16 [(42, [FieldType.boolean])]
      [0x81, 0x10, 42, 0, 0, 0, 0, 0, 0, 0] = .error .runtimeError :=
  rfl

/-- C3 counterexample: the claim states that every value `0` through `7` is
encoded in the leading byte alone.  The terminal byte of the encoder masks
the shifted payload with `0x7`, which keeps only two payload bits, so the
loop guard `(value << 1) > 0x7` forces values `4` through `7` into a
continuation byte: `encodeInteger 4` is the two bytes `0x01 0x08`, not a
single byte. -/
theorem c3_counterexample :
    encodeInteger 4 = [0x01, 0x08] ∧ (encodeUint 4).length ≠ 1 :=
  ⟨rfl, by decide⟩

/-- C3 amended: only the values `0` through `3` fit in the leading byte
alone (`encodeUint v = [0x20 + 2v]`); the values `4` through `7` occupy two
bytes — a leading byte `0x21` with empty payload and set continuation bit,
followed by one payload byte `2v` (which is also not the shortest encoding
the format admits, since the decoder accepts payloads up to 7 in the
leading byte). -/
theorem c3_amended (v : Nat) :
    (v ≤ 3 → encodeInteger v = [2 * v] ∧ encodeUint v = [0x20 + 2 * v]) ∧
    (4 ≤ v → v ≤ 7 → encodeInteger v = [0x01, 2 * v] ∧
      encodeUint v = [0x21, 2 * v]) := by
  constructor
  · intro h
    interval_cases v <;> exact ⟨rfl, rfl⟩
  · intro h₁ h₂
    interval_cases v <;> exact ⟨rfl, rfl⟩

/-- C3 witness: the amended statement evaluated at `v = 2` and `v = 6`. -/
theorem c3_amended_witness :
    encodeUint 2 = [0x24] ∧ encodeUint 6 = [0x21, 12] :=
  ⟨((c3_amended 2).1 (by decide)).2, ((c3_amended 6).2 (by decide) (by decide)).2⟩

/-- C4: every container decoder guards its declared body size against
`sizeLimit = 2 * 10 ^ 9`.  First part: whenever the size varint decodes to
`s ≥ 2 * 10 ^ 9`, each of the five decoders returns `ErrSizeTooLarge`
without producing a value.  Second part, at the boundary: the varint
`0x.1 0x0F 0x73 0xAD 0x4F 0xFE` declares size `2 * 10 ^ 9 - 1`, which
passes the guard in all five decoders — each proceeds into its body (the
array and string decoders succeed on the empty remainder; the map, oneof
and struct decoders fail later with `io.EOF`, not with `ErrSizeTooLarge`). -/
theorem c4_size_guard :
    (∀ (fuel : Nat) (reg : Registry) (header : Nat) (bytes : List Nat)
        (sg : Bool) (s : Nat) (r : List Nat),
        decodeScalar header bytes = .ok (sg, s, r) → sizeLimit ≤ s →
        decodeArray (fuel + 1) reg header bytes = .error .sizeTooLarge ∧
        decodeMap (fuel + 1) reg header bytes = .error .sizeTooLarge ∧
        decodeOneOf (fuel + 1) reg header bytes = .error .sizeTooLarge ∧
        decodeStruct (fuel + 1) reg header bytes = .error .sizeTooLarge ∧
        decodeString header bytes = .error .sizeTooLarge) ∧
    (decodeScalar 0xC1 [0x0F, 0x73, 0xAD, 0x4F, 0xFE] =
        .ok (false, sizeLimit - 1, []) ∧
     decodeArray 5 [] 0x61 [0x0F, 0x73, 0xAD, 0x4F, 0xFE] = .ok ([], []) ∧
     decodeMap 5 [] 0xC1 [0x0F, 0x73, 0xAD, 0x4F, 0xFE] = .error .eof ∧
     decodeOneOf 5 [] 0xE1 [0x0F, 0x73, 0xAD, 0x4F, 0xFE] = .error .eof ∧
     decodeStruct 5 [] 0x81 [0x0F, 0x73, 0xAD, 0x4F, 0xFE] = .error .eof ∧
     decodeString 0xA1 [0x0F, 0x73, 0xAD, 0x4F, 0xFE] = .ok ([], [])) := by
  constructor
  · intro fuel reg header bytes sg s r h hs
    have h0 : ¬s = 0 := by
      have : (2000000000 : Nat) ≤ s := hs
      omega
    refine ⟨?_, ?_, ?_, ?_, ?_⟩
    · simp only [decodeArray, h, if_neg h0, if_pos hs]
    · simp only [decodeMap, h, if_neg h0, if_pos hs]
    · simp only [decodeOneOf, h, if_neg h0, if_pos hs]
    · simp only [decodeStruct, h, if_pos hs]
    · simp only [decodeString, h, if_pos hs]
  · exact ⟨rfl, rfl, rfl, rfl, rfl, rfl⟩

/-- C4 witness: the varint `0x01 0x0F 0x73 0xAD 0x51 0x00` declares size
exactly `2 * 10 ^ 9`; instantiating the size-guard theorem there makes
`decodeMap` return `ErrSizeTooLarge`. -/
theorem c4_size_guard_witness :
    decodeMap 5 [] 0xC1 [0x0F, 0x73, 0xAD, 0x51, 0x00] = .error .sizeTooLarge :=
  (c4_size_guard.1 4 [] 0xC1 [0x0F, 0x73, 0xAD, 0x51, 0x00] false 2000000000 []
    rfl (by decide)).2.1

/-- C5: the claim states that positional values that do not bind are
appended to `Structure.UnknownFields` with their original primary type, and
decoding succeeds.  Decoding does succeed, but the trailing loop
`for i, v := range str.values[maxI+1:]` reads `str.types[i]` with `i` the
position inside the sliced tail, so an extra value beyond the declared
fields is recorded with the type (and, via `Index: maxI + i`, the index) of
an earlier value.  Here the registered type 42 declares one bool field;
the stream carries a scalar (which binds) and then a string: the string
lands in `UnknownFields` with `Index = 0` and `Type = Scalar` instead of
`Index = 1` and `Type = String` (second conjunct: the extra value's actual
primary type is `String`). -/
theorem c5_trailing_unknown_field_wrong_type :
    decodeVal 16 [(42, [FieldType.boolean])]
      [0x81, 0x16, 42, 0, 0, 0, 0, 0, 0, 0, 0x2A, 0xA2, 0x61] =
      .ok (.struct, .structI [false] [(0, .scalar, .strV [0x61])], []) ∧
    detectType 0xA2 = .string :=
  ⟨rfl, rfl⟩

/-- C6: the claim states that decoding a map consumes exactly the declared
outer body size, so inner blocks extending past the declared window cannot
decode successfully.  In the source only the two single-byte length headers
go through the outer `io.LimitReader`; the `keyLen`/`valLen` continuation
bytes and the key and value blocks are read from the raw reader.  Here the
outer header `0xC4` declares a body of 2 bytes (second conjunct), yet all
4 following bytes are consumed (remaining stream `[]`) and the map decodes
successfully. -/
theorem c6_map_inner_blocks_escape_window :
    decodeMap 10 [] 0xC4 [0x02, 0x2A, 0x02, 0x2C] =
      .ok (some ([.scalarV false 5], [.scalarV false 6]), []) ∧
    decodeScalar 0xC4 [0x02, 0x2A, 0x02, 0x2C] =
      .ok (false, 2, [0x02, 0x2A, 0x02, 0x2C]) :=
  ⟨rfl, rfl⟩

/-- C7: the claim states that `decodeString` surfaces a failed size-varint
decode to its caller.  It does not: with header `0xA1` (continuation bit
set) and an exhausted stream, `decodeScalar` fails with `io.EOF` (second
conjunct), yet `decodeString` returns the empty string with no error. -/
theorem c7_decodeString_swallows_scalar_error :
    decodeString 0xA1 [] = .ok ([], []) ∧ decodeScalar 0xA1 [] = .error .eof :=
  ⟨rfl, rfl⟩

/-- C8: `decodeMap` fails with the uneven-map-values error whenever the
number of decoded keys differs from the number of decoded values, and every
`MapValue` it returns successfully has as many keys as values.  First
conjunct: the success postcondition for all fuels, registries and inputs —
the decoder's final check returns the error whenever the two counts differ,
so a successful non-nil result satisfies the cardinality invariant.  Second
conjunct, exhibiting the error itself: a map with declared outer size 3
whose key block holds one key (`0x2A`) and whose value block is empty
(`valLen` byte `0x00`) decodes to the uneven-map-values error. -/
theorem c8_map_cardinality :
    (∀ (fuel : Nat) (reg : Registry) (header : Nat) (bytes : List Nat)
        (ks vs : List Val) (rest : List Nat),
        decodeMap fuel reg header bytes = .ok (some (ks, vs), rest) →
        ks.length = vs.length) ∧
    decodeMap 10 [] 0xC6 [0x02, 0x2A, 0x00] = .error .unevenMapValues := by
  refine ⟨?_, rfl⟩
  intro fuel reg header bytes ks vs rest h
  cases fuel with
  | zero => simp [decodeMap] at h
  | succ f =>
    simp only [decodeMap] at h
    split at h
    · exact absurd h (by simp)
    · split at h
      · exact absurd h (by simp)
      · split at h
        · exact absurd h (by simp)
        · split at h
          · exact absurd h (by simp)
          · split at h
            · exact absurd h (by simp)
            · split at h
              · exact absurd h (by simp)
              · split at h
                · exact absurd h (by simp)
                · split at h
                  · exact absurd h (by simp)
                  · split at h
                    · exact absurd h (by simp)
                    · split at h
                      · exact absurd h (by simp)
                      · simp only [Except.ok.injEq, Prod.mk.injEq,
                          Option.some.injEq] at h
                        obtain ⟨⟨hk, hv⟩, -⟩ := h
                        subst hk
                        subst hv
                        omega

/-- C8 witness: a well-formed one-entry map (outer size 4, key block `0x2A`,
value block `0x2C`). -/
theorem c8_map_cardinality_witness :
    ([Val.scalarV false 5]).length = ([Val.scalarV false 6]).length :=
  c8_map_cardinality.1 10 [] 0xC8 [0x02, 0x2A, 0x02, 0x2C]
    [Val.scalarV false 5] [Val.scalarV false 6] [] rfl

/-- C9: binding a decoded scalar to a declared bool struct field sets the
field to the wire scalar's signedness flag — `true` exactly when the scalar
was signed — regardless of its magnitude (`setValue`'s bool case sets
`rv.Type().Kind() == reflect.Int64`). -/
theorem c9_bool_field_from_signedness (s : Bool) (v : Nat) :
    setValue .boolean (.scalarV s v) = .ok (some s) :=
  rfl

/-- C10: a declared body size of zero yields a nil value and no error in the
array, map and oneof decoders: `Decode` of the single byte `0x60` returns an
Array-typed nil slice, of `0xC0` a Map-typed nil `*MapValue`, and of `0xE0`
a OneOf-typed nil `*OneOfValue`. -/
theorem c10_zero_size_containers :
    decodeVal 4 [] [0x60] = .ok (.array, .arrV [], []) ∧
    decodeVal 4 [] [0xC0] = .ok (.map, .mapV none, []) ∧
    decodeVal 4 [] [0xE0] = .ok (.oneOf, .oneOfV none, []) :=
  ⟨rfl, rfl, rfl⟩

end Yarp
